import Mathlib

/-!
Shallow embedding of the certmagic-vault-storage adapter (Go) in Lean 4.

The repository maps CertMagic's Storage interface onto HashiCorp Vault's
kv-v2 HTTP API.  The embedding below translates, function by function, the
pure decision logic of the source:

* `secret.go`            — the path formatter and the response payload types;
* `auth.go`              — `errorResponse.Error`, `Storage.getToken`,
                           `Storage.login`, `Storage.approleTokenExpired`;
* the storage file (struct-config variant, first document of
  `src/unnamed/part_004`)      — `Store`, `Load`, `Delete`, `Exists`,
                           `List`, `Stat`, `Lock`, `Unlock`;
* the storage file (interface-config variant, second document of
  `src/unnamed/part_004`) — its differing `List` loop.

HTTP is abstracted as the tuple of observations the Go code branches on:
an optional transport error, the response status code (resty's
`IsError()` is `status > 399`), the decoded success payload and the
decoded error payload.  Time is a `Nat` timestamp; Go's strict
`time.Time.After` becomes `<` on those timestamps.
-/

namespace CertmagicVault

/-- Go `strings.ToLower` (ASCII-relevant part used by the path formatter). -/
def goToLower (s : String) : String :=
  String.mk (s.data.map Char.toLower)

/-- Go `strings.HasSuffix s suf`. -/
def goHasSuffix (s suf : String) : Bool :=
  List.isSuffixOf suf.data s.data

/-- Go `strings.Join errs (String.mk [';', ' '])` as used by `errorResponse.Error`. -/
def joinErrors (errs : List String) : String :=
  String.intercalate (String.mk [';', ' ']) errs

/-- The adapter's error vocabulary.  `notExist` embeds Go's `fs.ErrNotExist`
sentinel, `transport` a non-nil error from the HTTP client, `backend` the
joined Vault error body, `cancelled` Go's `ctx.Err()`. -/
inductive GoErr where
  | notExist : GoErr
  | transport (msg : String) : GoErr
  | backend (msg : String) : GoErr
  | cancelled : GoErr
deriving DecidableEq, Repr

/-- resty's `Response.IsError()`: status code greater than 399. -/
def isError (status : Nat) : Bool :=
  decide (399 < status)

/-- `errorResponse.Error` (src/auth.go lines 17-23): returns the `"; "`-joined
errors when the list is non-empty, and a nil error otherwise. -/
def errorResponseError (errs : List String) : Option GoErr :=
  if 0 < errs.length then some (GoErr.backend (joinErrors errs)) else none

/-- The decoded payload types of `secret.go`: `certMagicCertificateSecret`
holds the certificate bytes (`Data []byte`, embedded as `List Nat`) and the
lock expiration (`Lock *Time`, embedded as `Option Nat`). -/
structure certMagicCertificateSecret where
  data : List Nat
  lock : Option Nat
deriving DecidableEq, Repr

/-- `certificateSecret` of `secret.go`: the wrapper stored under Vault's
`data` field, with its single `certmagic` member. -/
structure certificateSecret where
  certmagic : certMagicCertificateSecret
deriving DecidableEq, Repr

/-- `certmagic.KeyInfo` as filled in by `Storage.Stat`. -/
structure KeyInfo where
  key : String
  isTerminal : Bool
  size : Nat
  modified : Nat
deriving DecidableEq, Repr

/-- `Storage.Store` response handling (struct-config storage file lines
112-136): a transport error propagates; on an error status the result is
`errorResponse.Error()`; otherwise nil. -/
def storeRespHandle (tr : Option String) (status : Nat) (errs : List String) : Option GoErr :=
  match tr with
  | some m => some (GoErr.transport m)
  | none => if isError status then errorResponseError errs else none

/-- `Storage.Load` response handling (struct-config storage file lines
144-171): a transport error propagates; an error status other than 404 is
only logged; a 404 yields `fs.ErrNotExist`; otherwise the decoded
certificate bytes are returned with a nil error. -/
def loadRespHandle (tr : Option String) (status : Nat) (payload : List Nat) :
    Except GoErr (List Nat) :=
  match tr with
  | some m => Except.error (GoErr.transport m)
  | none =>
    if isError status && status == 404 then Except.error GoErr.notExist
    else Except.ok payload

/-- `Storage.Delete` response handling (struct-config storage file lines
179-206): a transport error propagates; an error status other than 404 is
only logged; a 404 yields `fs.ErrNotExist`; otherwise nil. -/
def deleteRespHandle (tr : Option String) (status : Nat) : Option GoErr :=
  match tr with
  | some m => some (GoErr.transport m)
  | none =>
    if isError status && status == 404 then some GoErr.notExist else none

/-- `Storage.Unlock` response handling (struct-config storage file lines
398-425), identical in shape to `Delete` but aimed at the lock record. -/
def unlockRespHandle (tr : Option String) (status : Nat) : Option GoErr :=
  match tr with
  | some m => some (GoErr.transport m)
  | none =>
    if isError status && status == 404 then some GoErr.notExist else none

/-- `Storage.Stat` response handling (struct-config storage file lines
286-318): 404 maps to `fs.ErrNotExist`; on success returns the `KeyInfo`
with the key, terminal flag true, the payload length and the created time. -/
def statRespHandle (key : String) (tr : Option String) (status : Nat)
    (payload : List Nat) (created : Nat) : Except GoErr KeyInfo :=
  match tr with
  | some m => Except.error (GoErr.transport m)
  | none =>
    if isError status && status == 404 then Except.error GoErr.notExist
    else Except.ok ⟨key, true, payload.length, created⟩

/-- `Storage.Exists` (struct-config storage file lines 209-224): a transport
error or an error status yields false; otherwise true iff the decoded
certificate bytes are non-empty. -/
def existsResp (tr : Option String) (status : Nat) (payload : List Nat) : Bool :=
  match tr with
  | some _ => false
  | none =>
    if isError status then false
    else decide (0 < payload.length)

/-- The lock-record write at the end of `Storage.Lock` (struct-config
storage file lines 367-391): same error handling shape as `Store`. -/
def lockWriteRespHandle (tr : Option String) (status : Nat) (errs : List String) : Option GoErr :=
  match tr with
  | some m => some (GoErr.transport m)
  | none => if isError status then errorResponseError errs else none

/-- `secretPathFormatType.String` of `secret.go` lines 19-21: substitute the
three arguments into the format template `secretsPath/<ns>/pathPfx/key` and
lower-case the whole result with `strings.ToLower`. -/
def secretPathFormat (ns secretsPath pathPfx key : String) : String :=
  goToLower (secretsPath ++ (String.mk ['/']) ++ ns ++ (String.mk ['/']) ++ pathPfx ++ (String.mk ['/']) ++ key)

/-- `Storage.vaultDataPath` via `vaultCertMagicCertificateDataPathFormat`
(format string percent-s/data/percent-s/percent-s). -/
def vaultDataPath (secretsPath pathPfx key : String) : String :=
  secretPathFormat "data" secretsPath pathPfx key

/-- `Storage.vaultMetadataPath` via
`vaultCertMagicCertificateMetadataPathFormat`. -/
def vaultMetadataPath (secretsPath pathPfx key : String) : String :=
  secretPathFormat "metadata" secretsPath pathPfx key

/-! ## A minimal kv-v2 backend state for the round-trip claim

The backend is a map from physical path to the stored `certificateSecret`.
A GET on a present path answers 200 with the stored secret; on an absent
path it answers 404 (payload decoding then leaves the zero value). -/

def VaultState := String → Option certificateSecret

/-- A successful kv-v2 write at `path` (what the backend does with the body
`Store` POSTs: the wrapped secret becomes the current version's data). -/
def vaultWrite (σ : VaultState) (path : String) (sec : certificateSecret) : VaultState :=
  fun q => if q = path then some sec else σ q

/-- Status code of a backend GET at `path`. -/
def vaultReadStatus (σ : VaultState) (path : String) : Nat :=
  match σ path with
  | some _ => 200
  | none => 404

/-- Decoded payload of a backend GET at `path` (zero value when absent). -/
def vaultReadSecret (σ : VaultState) (path : String) : certificateSecret :=
  (σ path).getD ⟨⟨[], none⟩⟩

/-- `Storage.Store` against the in-memory backend: POST the certificate
bytes wrapped as `certificateSecret{Certmagic: {Data: value}}` at the data
path; the write succeeds (status 200, no transport error). -/
def storeOp (σ : VaultState) (secretsPath pathPfx key : String) (value : List Nat) :
    VaultState × Option GoErr :=
  (vaultWrite σ (vaultDataPath secretsPath pathPfx key) ⟨⟨value, none⟩⟩,
   storeRespHandle none 200 [])

/-- `Storage.Load` against the in-memory backend: GET the data path and run
the source's response handling on the observed status and payload. -/
def loadOp (σ : VaultState) (secretsPath pathPfx key : String) : Except GoErr (List Nat) :=
  loadRespHandle none
    (vaultReadStatus σ (vaultDataPath secretsPath pathPfx key))
    (vaultReadSecret σ (vaultDataPath secretsPath pathPfx key)).certmagic.data

/-! ## Credential session manager (`src/auth.go`) -/

/-- The token-relevant fields of `Storage`: the static config `Token`, the
cached approle client token (`approleResponse.Auth.ClientToken`, nil iff
`approleResponse` is nil) and `approleTokenExpiration`. -/
structure AuthState where
  token : String
  approleClientToken : Option String
  approleTokenExpiration : Option Nat
deriving DecidableEq, Repr

/-- `Storage.approleTokenExpired` (src/auth.go lines 155-161):
`time.Now().After(expiration)` when both cache fields are set, else true. -/
def approleTokenExpired (st : AuthState) (now : Nat) : Bool :=
  match st.approleClientToken, st.approleTokenExpiration with
  | some _, some exp => decide (exp < now)
  | _, _ => true

/-- `Storage.login` (src/auth.go lines 80-114).  The login exchange is
abstracted as its outcome `loginResp`: `.ok (tok, lease)` when the backend
returned a client token with a lease duration, `.error e` when the call
failed.  On success the response is cached together with
`now + lease_duration`; on failure the state is unchanged. -/
def loginStep (st : AuthState) (now : Nat) (loginResp : Except GoErr (String × Nat)) :
    Option GoErr × AuthState :=
  match loginResp with
  | Except.error e => (some e, st)
  | Except.ok (tok, lease) =>
    (none, { st with approleClientToken := some tok,
                     approleTokenExpiration := some (now + lease) })

/-- Result of `getToken`: the returned token string, the state after the
call, and how many login exchanges were performed. -/
structure TokenResult where
  token : String
  state : AuthState
  loginCalls : Nat
deriving DecidableEq, Repr

/-- `Storage.getToken` (src/auth.go lines 55-78): prefer the static token;
else the cached, unexpired approle token; else log in once, returning the
empty string if the login fails. -/
def getToken (st : AuthState) (now : Nat) (loginResp : Except GoErr (String × Nat)) :
    TokenResult :=
  if st.token ≠ "" then ⟨st.token, st, 0⟩
  else if st.approleClientToken.isSome && !approleTokenExpired st now then
    ⟨st.approleClientToken.getD "", st, 0⟩
  else
    match loginStep st now loginResp with
    | (some _, st2) => ⟨"", st2, 1⟩
    | (none, st2) => ⟨st2.approleClientToken.getD "", st2, 1⟩

/-! ## Recursive listing engine

The backend LIST primitive is abstracted as a function from a logical
key group to the entry names Vault returns for it (`result.Data.Keys`),
or a transport error.  Go's unbounded recursion is embedded with a fuel
parameter decremented at each nested `List` call; exhausted fuel yields
a transport error, which the Go code could never produce on a finite
key tree. -/

def LsFn := String → Except GoErr (List String)

/-- Full-path computation of the struct-config `List` loop (first document
of part_004, lines 254-259): insert a separator iff the incoming group
path does not already end in one. -/
def pathOfV1 (pfx entry : String) : String :=
  if goHasSuffix pfx "/" then pfx ++ entry else pfx ++ "/" ++ entry

/-- Full-path computation of the interface-config `List` loop (second
document of part_004, lines 662-667): append to the group path when it
ends in a separator, otherwise keep the bare entry (the concatenating
branch is commented out in the source). -/
def pathOfV2 (pfx entry : String) : String :=
  if goHasSuffix pfx "/" then pfx ++ entry else entry

/-- Loop body of the struct-config `List` (first document of part_004,
lines 252-270): every computed path is appended to the items,
group-marker or not; on `recursive`, group markers are expanded via the
`recur` continuation (the nested `s.List` call) and a nested error aborts
with an empty item list. -/
def listItemsV1 (recur : String → List String × Option GoErr) (pfx : String)
    (recursive : Bool) : List String → List String × Option GoErr
  | [] => ([], none)
  | entry :: rest =>
    let path := pathOfV1 pfx entry
    if recursive && goHasSuffix entry "/" then
      match recur path with
      | (_, some e) => ([], some e)
      | (results, none) =>
        match listItemsV1 recur pfx recursive rest with
        | (_, some e) => ([], some e)
        | (items, none) => (path :: (results ++ items), none)
    else
      match listItemsV1 recur pfx recursive rest with
      | (_, some e) => ([], some e)
      | (items, none) => (path :: items, none)

/-- Loop body of the interface-config `List` (second document of part_004,
lines 659-681): identical, except paths are computed by `pathOfV2` and a
path is appended only when it does not end in the separator. -/
def listItemsV2 (recur : String → List String × Option GoErr) (pfx : String)
    (recursive : Bool) : List String → List String × Option GoErr
  | [] => ([], none)
  | entry :: rest =>
    let path := pathOfV2 pfx entry
    let keep := if goHasSuffix path "/" then ([] : List String) else [path]
    if recursive && goHasSuffix entry "/" then
      match recur path with
      | (_, some e) => ([], some e)
      | (results, none) =>
        match listItemsV2 recur pfx recursive rest with
        | (_, some e) => ([], some e)
        | (items, none) => (keep ++ results ++ items, none)
    else
      match listItemsV2 recur pfx recursive rest with
      | (_, some e) => ([], some e)
      | (items, none) => (keep ++ items, none)

/-- `Storage.List`, struct-config variant: LIST the group, run the loop,
and report `fs.ErrNotExist` when no items were produced. -/
def storageListV1 : Nat → LsFn → String → Bool → List String × Option GoErr
  | 0, _, _, _ => ([], some (GoErr.transport "recursion fuel exhausted"))
  | fuel + 1, ls, pfx, recursive =>
    match ls pfx with
    | Except.error e => ([], some e)
    | Except.ok keys =>
      match listItemsV1 (fun p => storageListV1 fuel ls p recursive) pfx recursive keys with
      | (_, some e) => ([], some e)
      | (items, none) =>
        if items.length = 0 then (items, some GoErr.notExist) else (items, none)

/-- `Storage.List`, interface-config variant: LIST the group, run the loop,
and report `fs.ErrNotExist` when no items were produced. -/
def storageListV2 : Nat → LsFn → String → Bool → List String × Option GoErr
  | 0, _, _, _ => ([], some (GoErr.transport "recursion fuel exhausted"))
  | fuel + 1, ls, pfx, recursive =>
    match ls pfx with
    | Except.error e => ([], some e)
    | Except.ok keys =>
      match listItemsV2 (fun p => storageListV2 fuel ls p recursive) pfx recursive keys with
      | (_, some e) => ([], some e)
      | (items, none) =>
        if items.length = 0 then (items, some GoErr.notExist) else (items, none)

/-- The spec §8 listing fixture: keys `foo.bar.baz`, `foo.bar.com`,
`production/test1.baz.com`, `staging/test3.baz.com`,
`staging/test3.quux.org`, exposed through Vault's one-level LIST
convention (nested groups reported with a trailing separator). -/
def fixtureLs : LsFn := fun pfx =>
  if pfx = "" then
    Except.ok ["foo.bar.baz", "foo.bar.com", "production/", "staging/"]
  else if pfx = "production/" then Except.ok ["test1.baz.com"]
  else if pfx = "staging/" then Except.ok ["test3.baz.com", "test3.quux.org"]
  else Except.ok []

/-! ## Distributed lock manager (`Storage.Lock`) -/

/-- What one polling iteration of `Lock` observes from its GET of the lock
record: a transport error, no record (`Certmagic.Lock == nil`), or a record
carrying an expiration timestamp. -/
inductive LockObs where
  | transportErr (msg : String) : LockObs
  | absent : LockObs
  | held (exp : Nat) : LockObs
deriving DecidableEq, Repr

/-- Environment of one loop iteration: the GET observation, the wall-clock
`time.Now()` at the expiry check, the outcome `s.Unlock` would report if
invoked, and whether the caller's context is cancelled when the `select`
runs (`ctx.Done()` ready). -/
structure LockIterEnv where
  obs : LockObs
  now : Nat
  unlockErr : Option GoErr
  ctxCancelled : Bool
deriving DecidableEq, Repr

/-- Outcome of one iteration of `Lock`'s polling loop. -/
inductive LockStepRes where
  | ret (e : GoErr) : LockStepRes
  | acquire : LockStepRes
  | wait : LockStepRes
deriving DecidableEq, Repr

/-- One iteration of the `for` loop in `Storage.Lock` (struct-config
storage file lines 323-358): a GET error returns it; an absent record
breaks to acquire; a record with `time.Now().After(expiration)` is cleared
via `Unlock` (whose error, if any, is returned) and then breaks to
acquire; otherwise the `select` either returns `ctx.Err()` (context
cancelled) or sleeps one polling interval and loops. -/
def lockIter (env : LockIterEnv) : LockStepRes :=
  match env.obs with
  | LockObs.transportErr m => LockStepRes.ret (GoErr.transport m)
  | LockObs.absent => LockStepRes.acquire
  | LockObs.held exp =>
    if decide (exp < env.now) then
      match env.unlockErr with
      | some e => LockStepRes.ret e
      | none => LockStepRes.acquire
    else if env.ctxCancelled then LockStepRes.ret GoErr.cancelled
    else LockStepRes.wait

/-- Result of running the polling loop over a finite trace of iteration
environments: an early return, a break to acquisition, or `running` when
the trace ended while the loop was still polling. -/
inductive LockLoopRes where
  | err (e : GoErr) : LockLoopRes
  | acquired : LockLoopRes
  | running : LockLoopRes
deriving DecidableEq, Repr

/-- The polling loop of `Storage.Lock` over a trace of iteration
environments. -/
def lockLoop : List LockIterEnv → LockLoopRes
  | [] => LockLoopRes.running
  | env :: rest =>
    match lockIter env with
    | LockStepRes.ret e => LockLoopRes.err e
    | LockStepRes.acquire => LockLoopRes.acquired
    | LockStepRes.wait => lockLoop rest

/-- The lock record `Lock` POSTs once past the loop: a single expiration
timestamp. -/
structure LockRecord where
  exp : Nat
deriving DecidableEq, Repr

/-- `Storage.Lock` end to end (struct-config storage file lines 321-392):
run the polling loop; once past it, POST one new lock record with
expiration `time.Now() + LockTimeout` (`writeNow + timeout`), the POST
result handled as in the source.  The second component collects the lock
records written; `none` means the trace ended with the loop still
polling. -/
def lockRun (envs : List LockIterEnv) (timeout writeNow : Nat)
    (postTr : Option String) (postStatus : Nat) (postErrs : List String) :
    Option (Option GoErr × List LockRecord) :=
  match lockLoop envs with
  | LockLoopRes.running => none
  | LockLoopRes.err e => some (some e, [])
  | LockLoopRes.acquired =>
    some (lockWriteRespHandle postTr postStatus postErrs, [⟨writeNow + timeout⟩])

/-- The rule §4.4 of the spec states for the full-path computation of
`List`, modelled from the spec's words: concatenate the group path and
the entry, inserting a separator exactly when the group path does not
already end in one. -/
def specClaimedFullPath (pfx entry : String) : String :=
  if goHasSuffix pfx "/" then pfx ++ entry else pfx ++ "/" ++ entry

/-! ## Helper lemmas -/

theorem goToLower_append (a b : String) : goToLower (a ++ b) = goToLower a ++ goToLower b := by
  apply String.ext
  simp [goToLower, String.data_append]

theorem lockIter_fresh {env : LockIterEnv} {exp : Nat}
    (hobs : env.obs = LockObs.held exp) (hfresh : env.now < exp) :
    lockIter env = (if env.ctxCancelled then LockStepRes.ret GoErr.cancelled else LockStepRes.wait) := by
  unfold lockIter
  rw [hobs]
  have hd : decide (exp < env.now) = false := by
    simp only [decide_eq_false_iff_not]
    omega
  simp [hd]

theorem lockIter_acquire_inv {env : LockIterEnv}
    (h : lockIter env = LockStepRes.acquire) :
    env.obs = LockObs.absent ∨ ∃ exp, env.obs = LockObs.held exp ∧ exp < env.now := by
  unfold lockIter at h
  cases hobs : env.obs with
  | transportErr m => rw [hobs] at h; exact absurd h (by simp)
  | absent => exact Or.inl rfl
  | held exp =>
    rw [hobs] at h
    refine Or.inr ⟨exp, rfl, ?_⟩
    by_cases hlt : exp < env.now
    · exact hlt
    · exfalso
      have hd : decide (exp < env.now) = false := by simp [hlt]
      simp only [hd] at h
      rcases hcc : env.ctxCancelled with _ | _ <;> simp [hcc] at h

theorem lockLoop_acquired_exists {envs : List LockIterEnv}
    (h : lockLoop envs = LockLoopRes.acquired) :
    ∃ env ∈ envs, lockIter env = LockStepRes.acquire := by
  induction envs with
  | nil => simp [lockLoop] at h
  | cons env rest ih =>
    unfold lockLoop at h
    cases hi : lockIter env with
    | ret e => rw [hi] at h; simp at h
    | acquire => exact ⟨env, List.mem_cons_self env rest, hi⟩
    | wait =>
      rw [hi] at h
      obtain ⟨e2, he, ha⟩ := ih h
      exact ⟨e2, List.mem_cons_of_mem env he, ha⟩

/-! ## Claim theorems -/

/-- Claim C1: group markers are claimed to never appear in a `List` result,
and `List("", false)` on the §8 fixture is claimed to return exactly the two
leaf entries.  The struct-config variant's `List` violates this: it appends
every computed path unconditionally, so on the fixture it returns four
items, among them the separator-terminated group markers, contradicting the
claim, the function's own doc comment and the repository's tests. -/
theorem C1_struct_list_includes_group_markers :
    storageListV1 1 fixtureLs "" false
      = (["/foo.bar.baz", "/foo.bar.com", "/production/", "/staging/"], none)
    ∧ "/production/" ∈ (storageListV1 1 fixtureLs "" false).1
    ∧ goHasSuffix "/production/" "/" = true := by
  refine ⟨rfl, ?_, rfl⟩
  decide

/-- Claim C2, counterexample: the claimed full-path rule (always concatenate
the group path, inserting a separator when it lacks one) disagrees with the
code.  The interface-config `List` drops the group path entirely when it
does not end in a separator (entry `test3.baz.com` under group `staging`),
and the struct-config `List` at the root produces a leading separator
(`/foo.bar.baz`), not the bare entry name the claim requires. -/
theorem C2_claimed_path_rule_counterexample :
    specClaimedFullPath "staging" "test3.baz.com" = "staging/test3.baz.com"
    ∧ pathOfV2 "staging" "test3.baz.com" = "test3.baz.com"
    ∧ ("staging/test3.baz.com" : String) ≠ "test3.baz.com"
    ∧ specClaimedFullPath "" "foo.bar.baz" = "/foo.bar.baz"
    ∧ pathOfV1 "" "foo.bar.baz" = "/foo.bar.baz"
    ∧ ("/foo.bar.baz" : String) ≠ "foo.bar.baz" := by
  refine ⟨rfl, rfl, by decide, rfl, rfl, by decide⟩

/-- Claim C2 as amended: the interface-config `List` computes an entry's
full path as the group path concatenated with the entry, with no separator
inserted, when the group path already ends in the separator, and as the
bare entry name (the group path is not prepended) otherwise; with the empty
group path the resulting paths are the bare entry names, exactly
`foo.bar.baz` and `foo.bar.com` for the §8 fixture. -/
theorem C2_path_computation :
    (∀ pfx entry, goHasSuffix pfx "/" = true → pathOfV2 pfx entry = pfx ++ entry)
    ∧ (∀ pfx entry, goHasSuffix pfx "/" = false → pathOfV2 pfx entry = entry)
    ∧ storageListV2 1 fixtureLs "" false = (["foo.bar.baz", "foo.bar.com"], none) := by
  refine ⟨?_, ?_, rfl⟩
  · intro pfx entry h
    simp [pathOfV2, h]
  · intro pfx entry h
    simp [pathOfV2, h]

/-- Witness for C2: the two path-computation rules at concrete inputs. -/
theorem C2_path_computation_witness :
    pathOfV2 "staging/" "test3.baz.com" = "staging/test3.baz.com"
    ∧ pathOfV2 "staging" "test3.baz.com" = "test3.baz.com" :=
  ⟨C2_path_computation.1 "staging/" "test3.baz.com" (by decide),
   C2_path_computation.2.1 "staging" "test3.baz.com" (by decide)⟩

/-- Claim C3, counterexample: on a backend error status other than 404
(here 500), `Load` returns the decoded payload with a nil error and
`Delete` returns a nil error — the backend error is not surfaced to the
caller as the claim states. -/
theorem C3_non404_error_counterexample :
    isError 500 = true
    ∧ (500 : Nat) ≠ 404
    ∧ loadRespHandle none 500 [7] = Except.ok [7]
    ∧ deleteRespHandle none 500 = none := by
  refine ⟨rfl, by decide, rfl, rfl⟩

/-- Claim C3 as amended: when the backend answers `Load` or `Delete` with a
non-success status other than 404, the error is only logged: `Load`
returns the decoded payload with a nil error and `Delete` returns a nil
error; a 404 yields the distinguished not-found sentinel. -/
theorem C3_non404_errors_logged_not_returned :
    (∀ status payload, isError status = true → status ≠ 404 →
        loadRespHandle none status payload = Except.ok payload)
    ∧ (∀ status, isError status = true → status ≠ 404 →
        deleteRespHandle none status = none)
    ∧ (∀ payload, loadRespHandle none 404 payload = Except.error GoErr.notExist)
    ∧ deleteRespHandle none 404 = some GoErr.notExist := by
  refine ⟨?_, ?_, fun payload => rfl, rfl⟩
  · intro status payload h1 h2
    simp [loadRespHandle, h1, h2]
  · intro status h1 h2
    simp [deleteRespHandle, h1, h2]

/-- Witness for C3: the amended behaviour at status 500. -/
theorem C3_non404_errors_logged_not_returned_witness :
    loadRespHandle none 500 [7] = Except.ok [7]
    ∧ deleteRespHandle none 500 = none :=
  ⟨C3_non404_errors_logged_not_returned.1 500 [7] rfl (by decide),
   C3_non404_errors_logged_not_returned.2.1 500 rfl (by decide)⟩

/-- Claim C5: for every key and non-empty payload, a successful `Store`
followed by `Load` of the same key against the same backend returns exactly
the stored bytes. -/
theorem C5_store_load_round_trip (σ : VaultState) (secretsPath pathPfx key : String)
    (v : List Nat) (_hv : v ≠ []) :
    loadOp (storeOp σ secretsPath pathPfx key v).1 secretsPath pathPfx key = Except.ok v := by
  unfold loadOp storeOp vaultWrite vaultReadStatus vaultReadSecret loadRespHandle
  simp [isError]

/-- Witness for C5: round trip of the bytes `[1, 2, 3]` under key
`foo.bar.baz` on the empty backend. -/
theorem C5_store_load_round_trip_witness :
    loadOp (storeOp (fun _ => none) "secrets" "certificates" "foo.bar.baz" [1, 2, 3]).1
      "secrets" "certificates" "foo.bar.baz" = Except.ok [1, 2, 3] :=
  C5_store_load_round_trip (fun _ => none) "secrets" "certificates" "foo.bar.baz" [1, 2, 3]
    (by decide)

/-- Claim C6: a backend 404 makes `Load`, `Stat`, `Delete` and `Unlock`
return the distinguished not-found sentinel (Go's `fs.ErrNotExist`), which
is distinct from every transport and backend error; in particular `Load` of
a key absent from the backend reports not-found, and `Unlock` of an absent
lock reports not-found rather than silently succeeding. -/
theorem C6_notfound_sentinel :
    (∀ payload, loadRespHandle none 404 payload = Except.error GoErr.notExist)
    ∧ (∀ key payload t, statRespHandle key none 404 payload t = Except.error GoErr.notExist)
    ∧ deleteRespHandle none 404 = some GoErr.notExist
    ∧ unlockRespHandle none 404 = some GoErr.notExist
    ∧ (∀ σ secretsPath pathPfx key, σ (vaultDataPath secretsPath pathPfx key) = none →
        loadOp σ secretsPath pathPfx key = Except.error GoErr.notExist)
    ∧ (∀ m, GoErr.notExist ≠ GoErr.backend m ∧ GoErr.notExist ≠ GoErr.transport m) := by
  refine ⟨fun payload => rfl, fun key payload t => rfl, rfl, rfl, ?_, fun m => ⟨by simp, by simp⟩⟩
  intro σ secretsPath pathPfx key h
  unfold loadOp vaultReadStatus vaultReadSecret
  rw [h]
  rfl

/-- Witness for C6: `Load` of a never-written key on the empty backend. -/
theorem C6_notfound_sentinel_witness :
    loadOp (fun _ => none) "secrets" "certificates" "absent.example.org"
      = Except.error GoErr.notExist :=
  C6_notfound_sentinel.2.2.2.2.1 (fun _ => none) "secrets" "certificates" "absent.example.org" rfl

/-- Claim C4: while the lock record is held with an expiration strictly in
the future, `Lock` never writes a new record — each iteration either waits
one polling interval or returns the caller's cancellation error, and with
an already-cancelled context the very first fresh observation returns the
cancellation error instead of waiting; any lock record that does get
written is a single record created only after the record was observed
absent or expired-and-cleared, and its expiration is the write-time clock
plus the configured lock timeout. -/
theorem C4_lock_polling :
    (∀ (env : LockIterEnv) (exp : Nat), env.obs = LockObs.held exp → env.now < exp →
        lockIter env
          = (if env.ctxCancelled then LockStepRes.ret GoErr.cancelled else LockStepRes.wait))
    ∧ (∀ envs timeout writeNow postTr postStatus postErrs out,
        lockRun envs timeout writeNow postTr postStatus postErrs = some out →
        out.2 ≠ [] →
        out.2 = [⟨writeNow + timeout⟩]
          ∧ ∃ env ∈ envs,
              env.obs = LockObs.absent
              ∨ ∃ exp, env.obs = LockObs.held exp ∧ exp < env.now)
    ∧ (∀ (env : LockIterEnv) envs timeout writeNow postTr postStatus postErrs exp,
        env.obs = LockObs.held exp → env.now < exp → env.ctxCancelled = true →
        lockRun (env :: envs) timeout writeNow postTr postStatus postErrs
          = some (some GoErr.cancelled, [])) := by
  refine ⟨fun env exp hobs hfresh => lockIter_fresh hobs hfresh, ?_, ?_⟩
  · intro envs timeout writeNow postTr postStatus postErrs out hrun hne
    unfold lockRun at hrun
    cases hloop : lockLoop envs with
    | running => rw [hloop] at hrun; simp at hrun
    | err e =>
      rw [hloop] at hrun
      simp at hrun
      rw [← hrun] at hne
      simp at hne
    | acquired =>
      rw [hloop] at hrun
      simp at hrun
      constructor
      · rw [← hrun]
      · obtain ⟨env, hmem, hacq⟩ := lockLoop_acquired_exists hloop
        exact ⟨env, hmem, lockIter_acquire_inv hacq⟩
  · intro env envs timeout writeNow postTr postStatus postErrs exp hobs hfresh hcc
    have hstep : lockIter env = LockStepRes.ret GoErr.cancelled := by
      rw [lockIter_fresh hobs hfresh, hcc]
      rfl
    unfold lockRun lockLoop
    rw [hstep]

/-- Witness for C4: a fresh lock observed under an already-cancelled
context returns the cancellation error with no record written; a trace
that observes the record absent writes exactly one record expiring at
`writeNow + timeout` (7 + 5). -/
theorem C4_lock_polling_witness :
    lockIter ⟨LockObs.held 10, 3, none, false⟩ = LockStepRes.wait
    ∧ ((⟨none, [⟨12⟩]⟩ : Option GoErr × List LockRecord).2 = [⟨12⟩]
        ∧ ∃ env ∈ [(⟨LockObs.absent, 0, none, false⟩ : LockIterEnv)],
            env.obs = LockObs.absent
            ∨ ∃ exp, env.obs = LockObs.held exp ∧ exp < env.now)
    ∧ lockRun [⟨LockObs.held 100, 0, none, true⟩] 5 7 none 200 []
        = some (some GoErr.cancelled, []) :=
  ⟨C4_lock_polling.1 ⟨LockObs.held 10, 3, none, false⟩ 10 rfl (by decide),
   C4_lock_polling.2.1 [⟨LockObs.absent, 0, none, false⟩] 5 7 none 200 [] ⟨none, [⟨12⟩]⟩
     rfl (by decide),
   C4_lock_polling.2.2 ⟨LockObs.held 100, 0, none, true⟩ [] 5 7 none 200 [] 100
     rfl (by decide) rfl⟩

/-- Claim C7: `getToken` resolves, in order: a configured static token is
returned with no login attempted; else a cached approle token whose
expiration has not passed is returned with no login attempted; otherwise
exactly one login exchange runs — on success its client token is returned
and cached with expiration `now + lease_duration`, on failure the empty
string is returned with no retry and the cache unchanged. -/
theorem C7_getToken_resolution_order :
    (∀ st now loginResp, st.token ≠ "" →
        getToken st now loginResp = ⟨st.token, st, 0⟩)
    ∧ (∀ (st : AuthState) now loginResp cached exp, st.token = "" →
        st.approleClientToken = some cached →
        st.approleTokenExpiration = some exp → now ≤ exp →
        getToken st now loginResp = ⟨cached, st, 0⟩)
    ∧ (∀ (st : AuthState) now tok lease, st.token = "" →
        approleTokenExpired st now = true →
        getToken st now (Except.ok (tok, lease))
          = ⟨tok, { st with approleClientToken := some tok,
                            approleTokenExpiration := some (now + lease) }, 1⟩)
    ∧ (∀ (st : AuthState) now e, st.token = "" →
        approleTokenExpired st now = true →
        getToken st now (Except.error e) = ⟨"", st, 1⟩) := by
  refine ⟨?_, ?_, ?_, ?_⟩
  · intro st now loginResp h
    simp [getToken, h]
  · intro st now loginResp cached exp h1 h2 h3 h4
    have hexp : approleTokenExpired st now = false := by
      unfold approleTokenExpired
      rw [h2, h3]
      simp
      omega
    simp [getToken, h1, h2, hexp]
  · intro st now tok lease h1 h2
    simp [getToken, h1, h2, loginStep]
  · intro st now e h1 h2
    simp [getToken, h1, h2, loginStep]

/-- Witness for C7: the four branches at concrete states. -/
theorem C7_getToken_resolution_order_witness :
    getToken ⟨"static-token", none, none⟩ 0 (Except.error GoErr.cancelled)
      = ⟨"static-token", ⟨"static-token", none, none⟩, 0⟩
    ∧ getToken ⟨"", some "cached-token", some 50⟩ 10 (Except.error GoErr.cancelled)
      = ⟨"cached-token", ⟨"", some "cached-token", some 50⟩, 0⟩
    ∧ getToken ⟨"", none, none⟩ 10 (Except.ok ("fresh-token", 30))
      = ⟨"fresh-token", ⟨"", some "fresh-token", some 40⟩, 1⟩
    ∧ getToken ⟨"", none, none⟩ 10 (Except.error (GoErr.backend "denied"))
      = ⟨"", ⟨"", none, none⟩, 1⟩ :=
  ⟨C7_getToken_resolution_order.1 ⟨"static-token", none, none⟩ 0
     (Except.error GoErr.cancelled) (by decide),
   C7_getToken_resolution_order.2.1 ⟨"", some "cached-token", some 50⟩ 10
     (Except.error GoErr.cancelled) "cached-token" 50 rfl rfl rfl (by decide),
   C7_getToken_resolution_order.2.2.1 ⟨"", none, none⟩ 10 "fresh-token" 30 rfl rfl,
   C7_getToken_resolution_order.2.2.2 ⟨"", none, none⟩ 10 (GoErr.backend "denied") rfl rfl⟩

/-- Claim C8: `Exists` returns true exactly when the backend read carries no
transport error, no error status, and a non-empty decoded payload; every
failure mode yields false. -/
theorem C8_exists_iff :
    ∀ tr status payload,
      existsResp tr status payload = true
        ↔ (tr = none ∧ isError status = false ∧ payload ≠ []) := by
  intro tr status payload
  cases tr with
  | some m => simp [existsResp]
  | none =>
    cases h : isError status with
    | true => simp [existsResp, h]
    | false =>
      simp [existsResp, h]
      exact List.length_pos

/-- Claim C9: when a write is rejected with an error status whose JSON
error body decodes to an empty errors list, `errorResponse.Error()` is nil,
so both `Store` and `Lock`'s record write report success (a nil error) for
a write the backend refused. -/
theorem C9_empty_error_list_reports_success :
    ∀ status, isError status = true →
      storeRespHandle none status [] = none
      ∧ lockWriteRespHandle none status [] = none := by
  intro status h
  constructor <;> simp [storeRespHandle, lockWriteRespHandle, h, errorResponseError]

/-- Witness for C9: a 500 response with an empty errors list yields a nil
error from both write paths. -/
theorem C9_empty_error_list_reports_success_witness :
    storeRespHandle none 500 [] = none ∧ lockWriteRespHandle none 500 [] = none :=
  C9_empty_error_list_reports_success 500 rfl

/-- Claim C10: the path formatter lower-cases the entire physical path:
the data path is the lower-casing of
`secretsPath/data/pathPrefix/key`, the metadata path is identical with
`metadata` in place of `data`, and two keys equal up to letter case map to
the same backend locations. -/
theorem C10_paths_lowercased_whole :
    (∀ secretsPath pathPfx key,
        vaultDataPath secretsPath pathPfx key
          = goToLower (secretsPath ++ "/data/" ++ pathPfx ++ "/" ++ key))
    ∧ (∀ secretsPath pathPfx key,
        vaultMetadataPath secretsPath pathPfx key
          = goToLower (secretsPath ++ "/metadata/" ++ pathPfx ++ "/" ++ key))
    ∧ (∀ secretsPath pathPfx k1 k2, goToLower k1 = goToLower k2 →
        vaultDataPath secretsPath pathPfx k1 = vaultDataPath secretsPath pathPfx k2
        ∧ vaultMetadataPath secretsPath pathPfx k1 = vaultMetadataPath secretsPath pathPfx k2) := by
  have hdata : ∀ secretsPath pathPfx key,
      vaultDataPath secretsPath pathPfx key
        = goToLower (secretsPath ++ "/data/" ++ pathPfx ++ "/" ++ key) := by
    intro secretsPath pathPfx key
    unfold vaultDataPath secretPathFormat
    apply congrArg goToLower
    apply String.ext
    simp [String.data_append]
  have hmeta : ∀ secretsPath pathPfx key,
      vaultMetadataPath secretsPath pathPfx key
        = goToLower (secretsPath ++ "/metadata/" ++ pathPfx ++ "/" ++ key) := by
    intro secretsPath pathPfx key
    unfold vaultMetadataPath secretPathFormat
    apply congrArg goToLower
    apply String.ext
    simp [String.data_append]
  refine ⟨hdata, hmeta, ?_⟩
  intro secretsPath pathPfx k1 k2 h
  constructor
  · simp only [hdata, goToLower_append, h]
  · simp only [hmeta, goToLower_append, h]

/-- Witness for C10: the keys `Foo.BAR` and `fOO.bar` map to the same
physical locations. -/
theorem C10_paths_lowercased_whole_witness :
    vaultDataPath "Secrets" "Certificates" "Foo.BAR"
      = vaultDataPath "Secrets" "Certificates" "fOO.bar"
    ∧ vaultMetadataPath "Secrets" "Certificates" "Foo.BAR"
      = vaultMetadataPath "Secrets" "Certificates" "fOO.bar" :=
  C10_paths_lowercased_whole.2.2 "Secrets" "Certificates" "Foo.BAR" "fOO.bar" (by decide)

end CertmagicVault
